import Mathlib

/-!
Shallow embedding of the Dataset Destroyer degradation pipeline
(src/Dataset Destroyer/datasetDestroyer.py) and proofs about it.

Modelling conventions:
- Python ints are Int, byte samples are Nat taken mod 256 where the uint8
  representation matters, Python floats are modelled as rationals.
- Randomness (random.randint, random.choice, random.shuffle, np.random and
  cv2.randn draws) is passed in explicitly as oracle values and functions.
- External library calls (cv2 filters, cv2.resize, codec round trips) are
  modelled at their interface: they produce an image of the documented shape
  whose pixel content comes from an explicit oracle, since the pipeline treats
  that content as opaque.
- Fallible Python code paths return Except PyError; an uncaught Python
  exception is an Except.error value.
- Python float string formatting is abstracted by toString on rationals; no
  claim depends on the rendering of a float.
-/

set_option linter.unusedVariables false

/-- Runtime errors of the embedded code paths. reshapeError is the ValueError
raised by np.frombuffer(...).reshape([height, width, 3]) on a byte count
mismatch, re-raised by apply_compression; it carries the expected height and
width and the decoder diagnostic output that the source logs. cvError stands
for the exceptions the external libraries raise when handed an absent (None)
pixel buffer. -/
inductive PyError where
  | indexError : PyError
  | keyError : String → PyError
  | nameError : String → PyError
  | reshapeError : Nat → Nat → String → PyError
  | cvError : PyError
deriving Repr, DecidableEq

/-- One recorded cv2.putText call: the burned text, its origin coordinates,
font scale, color and thickness. -/
structure Annot where
  text : String
  org : Int × Int
  fontScale : ℚ
  color : Nat × Nat × Nat
  thickness : Nat
deriving Repr, DecidableEq

/-- A height x width x 3 array of 8 bit samples in row major layout, plus the
list of text overlays burned onto it (recorded separately so that theorems can
speak about the putText calls). -/
structure Image where
  height : Nat
  width : Nat
  data : List Nat
  annots : List Annot
deriving Repr, DecidableEq

/-- The configuration values the script loads from config.ini, with the
source variable names. Ranges are (low, high) pairs; size_factor and the
scale range are rationals standing for Python floats. -/
structure Config where
  degradations : List String
  degradations_randomize : Bool
  blur_algorithms : List String
  blur_randomize : Bool
  blur_range : Int × Int
  noise_algorithms : List String
  noise_randomize : Bool
  noise_range : Int × Int
  compression_algorithms : List String
  compression_randomize : Bool
  jpeg_quality_range : Int × Int
  webp_quality_range : Int × Int
  h264_crf_level_range : Int × Int
  hevc_crf_level_range : Int × Int
  mpegbitrate : String
  mpeg2bitrate : String
  size_factor : ℚ
  scale_algorithms : List String
  down_up_scale_algorithms : List String
  scale_randomize : Bool
  scale_range : ℚ × ℚ
  print_to_image : Bool

/-- Python int() applied to a rational: truncation toward zero. -/
def pyIntTrunc (q : ℚ) : Int := if 0 ≤ q then ⌊q⌋ else ⌈q⌉

/-- random.choice: return the element at the drawn index; none models the
IndexError on an empty sequence. -/
def pyChoice {α : Type} (l : List α) (i : Nat) : Option α := l.get? (i % l.length)

/-- The selection pattern shared by all four operators: a random choice when
the randomize flag is set, otherwise the first configured entry (IndexError,
i.e. none, when the list is empty). -/
def selectAlg (randomize : Bool) (algs : List String) (idx : Nat) : Option String :=
  if randomize then pyChoice algs idx else algs.head?

/-- Raise the given error when the optional value is absent. -/
def orRaise {α : Type} (e : PyError) : Option α → Except PyError α
  | some a => Except.ok a
  | none => Except.error e

/-- Randomness and external pixel content consumed by one apply_blur call:
the choice index, the randint draws, and the pixel content oracle of the
external cv2 filter output. -/
structure BlurRand where
  algIdx : Nat
  k1 : Int
  k2 : Int
  pix : Nat → Nat

/-- Randomness and external content for one apply_noise call: the choice
index, the randint draws, and the generated noise buffer after conversion to
uint8 (one byte per flat index). -/
structure NoiseRand where
  algIdx : Nat
  intensity : Int
  s1 : Int
  s2 : Int
  s3 : Int
  bytes : Nat → Nat

/-- Randomness and external content for one apply_compression call: the
choice index, the quality and crf draws, the pixel oracle of the image codec
round trip, the raw byte stream produced by the ffmpeg decode stage, and the
captured decoder diagnostics. -/
structure CompRand where
  algIdx : Nat
  quality : Int
  crf_level : Int
  pix : Nat → Nat
  videoOut : List Nat
  errDiag : String

/-- Randomness and external content for one apply_scale call: choice indices
for the algorithm lists, the np.random.uniform draw, and the pixel oracles of
the two possible cv2.resize calls. -/
structure ScaleRand where
  algIdx : Nat
  algIdx1 : Nat
  algIdx2 : Nat
  scale_factor : ℚ
  pix1 : Nat → Nat
  pix2 : Nat → Nat

/-- All randomness one pipeline step may consume. -/
structure StepRand where
  blur : BlurRand
  noise : NoiseRand
  comp : CompRand
  scale : ScaleRand

/-- External cv2 filter call (cv2.blur or cv2.GaussianBlur): it preserves the
image shape; the filtered pixel content is delegated to the oracle. -/
def cvFilter (img : Image) (pix : Nat → Nat) : Image :=
  ⟨img.height, img.width, (List.range (img.height * img.width * 3)).map (fun i => pix i % 256),
    img.annots⟩

/-- External cv2.resize call: produces an image of the requested width and
height (cv2 takes the size as (width, height)); pixel content from the
oracle. Negative requested sizes do not occur on the proved paths. -/
def cvResize (img : Image) (neww newh : Int) (interp : Nat) (pix : Nat → Nat) : Image :=
  ⟨newh.toNat, neww.toNat, (List.range (newh.toNat * neww.toNat * 3)).map (fun i => pix i % 256),
    img.annots⟩

/-- External cv2.putText call: records the overlay on the image. -/
def cvPutText (img : Image) (text : String) (org : Int × Int) (fontScale : ℚ)
    (color : Nat × Nat × Nat) (thickness : Nat) : Image :=
  ⟨img.height, img.width, img.data, img.annots ++ [⟨text, org, fontScale, color, thickness⟩]⟩

/-- Source lines 43-45: cv2.putText(image, "order. text", (10, order * 50),
FONT_HERSHEY_SIMPLEX, 1.25 * size_factor, (255, 0, 0), 2, LINE_AA). -/
def print_text_to_image (cfg : Config) (image : Image) (text : String) (order : Nat) : Image :=
  cvPutText image (toString order ++ ". " ++ text) (10, (order : Int) * 50)
    ((1.25 : ℚ) * cfg.size_factor) (255, 0, 0) 2

/-- Source line 62: ksize = randint(*blur_range) | 1 (Python bitwise or). -/
def gaussianKsize (k : Int) : Int := Int.lor k 1

/-- Source lines 68 and 75-76: ksize = 2 * int(4 * sigma + 0.5) + 1. -/
def isoKsize (sigma : Int) : Int := 2 * pyIntTrunc (4 * (sigma : ℚ) + 0.5) + 1

/-- Source lines 48-80, apply_blur. The working image is optional because
cv2.imread may have produced None; the cv2 filter calls raise on None while
the unknown-algorithm fallthrough returns the input unchanged with the empty
description. -/
def apply_blur (cfg : Config) (r : BlurRand) (oimage : Option Image) :
    Except PyError (Option Image × String) := do
  let algorithm ← orRaise PyError.indexError
    (selectAlg cfg.blur_randomize cfg.blur_algorithms r.algIdx)
  if algorithm = "average" then do
    let ksize := r.k1
    let image ← orRaise PyError.cvError oimage
    pure (some (cvFilter image r.pix), "average ksize=" ++ toString ksize)
  else if algorithm = "gaussian" then do
    let ksize := gaussianKsize r.k1
    let image ← orRaise PyError.cvError oimage
    pure (some (cvFilter image r.pix), "gaussian ksize=" ++ toString ksize)
  else if algorithm = "isotropic" then do
    let sigma := r.k1
    let ksize := isoKsize sigma
    let image ← orRaise PyError.cvError oimage
    pure (some (cvFilter image r.pix),
      "isotropic ksize=" ++ toString ksize ++ " sigma=" ++ toString sigma)
  else if algorithm = "anisotropic" then do
    let sigma_x := r.k1
    let sigma_y := r.k2
    let ksize_x := isoKsize sigma_x
    let ksize_y := isoKsize sigma_y
    let image ← orRaise PyError.cvError oimage
    pure (some (cvFilter image r.pix),
      "anisotropic sigma_x=" ++ toString sigma_x ++ " sigma_y=" ++ toString sigma_y
        ++ " ksize_x=" ++ toString ksize_x ++ " ksize_y=" ++ toString ksize_y)
  else
    pure (oimage, "")

/-- cv2.add on uint8 samples: saturating addition. -/
def satAdd (a b : Nat) : Nat := min (a + b) 255

/-- numpy += on uint8 samples: wraparound addition. -/
def wrapAdd (a b : Nat) : Nat := (a + b) % 256

/-- Source lines 83-118, apply_noise. uniform and gaussian add the noise
buffer with cv2.add (saturating); color and gray add it with numpy += on
uint8 (wraparound), gray broadcasting one byte per pixel over the three
channels. The noise buffer content itself is external randomness. -/
def apply_noise (cfg : Config) (r : NoiseRand) (oimage : Option Image) :
    Except PyError (Option Image × String) := do
  let algorithm ← orRaise PyError.indexError
    (selectAlg cfg.noise_randomize cfg.noise_algorithms r.algIdx)
  if algorithm = "uniform" then do
    let intensity := r.intensity
    let image ← orRaise PyError.cvError oimage
    let data := (List.range (image.height * image.width * 3)).map
      (fun i => satAdd (image.data.getD i 0) (r.bytes i % 256))
    pure (some ⟨image.height, image.width, data, image.annots⟩,
      "uniform intensity=" ++ toString intensity)
  else if algorithm = "gaussian" then do
    let intensity := r.intensity
    let image ← orRaise PyError.cvError oimage
    let data := (List.range (image.height * image.width * 3)).map
      (fun i => satAdd (image.data.getD i 0) (r.bytes i % 256))
    pure (some ⟨image.height, image.width, data, image.annots⟩,
      "gaussian intensity=" ++ toString intensity)
  else if algorithm = "color" then do
    let image ← orRaise PyError.cvError oimage
    let data := (List.range (image.height * image.width * 3)).map
      (fun i => wrapAdd (image.data.getD i 0) (r.bytes i % 256))
    pure (some ⟨image.height, image.width, data, image.annots⟩,
      "color s=(" ++ toString r.s1 ++ ", " ++ toString r.s2 ++ ", " ++ toString r.s3 ++ ")")
  else if algorithm = "gray" then do
    let image ← orRaise PyError.cvError oimage
    let data := (List.range (image.height * image.width * 3)).map
      (fun i => wrapAdd (image.data.getD i 0) (r.bytes (i / 3) % 256))
    pure (some ⟨image.height, image.width, data, image.annots⟩,
      "gray s=(" ++ toString r.s1 ++ ",)")
  else
    pure (oimage, "")

/-- Source lines 121-206, apply_compression. jpeg and webp are an external
encode and decode round trip preserving dimensions; the four video codecs go
through the ffmpeg pipe pair, and the decoded byte stream r.videoOut is
reinterpreted as a height x width x 3 array, raising reshapeError when the
byte count does not match exactly. -/
def apply_compression (cfg : Config) (r : CompRand) (oimage : Option Image) :
    Except PyError (Option Image × String) := do
  let algorithm ← orRaise PyError.indexError
    (selectAlg cfg.compression_randomize cfg.compression_algorithms r.algIdx)
  if algorithm = "jpeg" then do
    let quality := r.quality
    let image ← orRaise PyError.cvError oimage
    let data := (List.range (image.height * image.width * 3)).map (fun i => r.pix i % 256)
    pure (some ⟨image.height, image.width, data, image.annots⟩,
      "jpeg quality=" ++ toString quality)
  else if algorithm = "webp" then do
    let quality := r.quality
    let image ← orRaise PyError.cvError oimage
    let data := (List.range (image.height * image.width * 3)).map (fun i => r.pix i % 256)
    pure (some ⟨image.height, image.width, data, image.annots⟩,
      "webp quality=" ++ toString quality)
  else if algorithm ∈ ["h264", "hevc", "mpeg", "mpeg2"] then do
    let image ← orRaise PyError.cvError oimage
    let height := image.height
    let width := image.width
    let codec := if algorithm = "mpeg" then "mpeg1video"
      else if algorithm = "mpeg2" then "mpeg2video" else algorithm
    let container := "mpeg"
    let output_args : List (String × String) :=
      if algorithm = "h264" then [("crf", toString r.crf_level)]
      else if algorithm = "hevc" then [("crf", toString r.crf_level), ("x265-params", "log-level=0")]
      else if algorithm = "mpeg" then [("b", cfg.mpegbitrate)]
      else if algorithm = "mpeg2" then [("b", cfg.mpeg2bitrate)]
      else []
    let out := r.videoOut
    if out.length = height * width * 3 then do
      let image2 : Image := ⟨height, width, out.map (fun b => b % 256), image.annots⟩
      let first_arg ← orRaise PyError.indexError output_args.head?
      pure (some image2, algorithm ++ " " ++ first_arg.1 ++ "=" ++ first_arg.2)
    else
      throw (PyError.reshapeError height width r.errDiag)
  else
    pure (oimage, "")

/-- Source lines 222-228: the map from scale algorithm names to cv2
interpolation mode constants; none models the KeyError on a missing name. -/
def interpolation_map (algorithm : String) : Option Nat :=
  if algorithm = "bicubic" then some 2
  else if algorithm = "bilinear" then some 1
  else if algorithm = "box" then some 3
  else if algorithm = "nearest" then some 0
  else if algorithm = "lanczos" then some 4
  else none

/-- Source lines 209-248, apply_scale. Target size is int(h * size_factor)
by int(w * size_factor); down_up goes through an intermediate resize by the
drawn factor; the interpolation map lookup raises KeyError on an unknown
algorithm name. -/
def apply_scale (cfg : Config) (r : ScaleRand) (oimage : Option Image) :
    Except PyError (Option Image × String) := do
  let image ← orRaise PyError.cvError oimage
  let h := image.height
  let w := image.width
  let new_h : Int := pyIntTrunc ((h : ℚ) * cfg.size_factor)
  let new_w : Int := pyIntTrunc ((w : ℚ) * cfg.size_factor)
  let algorithm ← orRaise PyError.indexError
    (selectAlg cfg.scale_randomize cfg.scale_algorithms r.algIdx)
  if algorithm = "down_up" then do
    let algorithm1 ← orRaise PyError.indexError
      (if cfg.scale_randomize then pyChoice cfg.down_up_scale_algorithms r.algIdx1
       else cfg.down_up_scale_algorithms.head?)
    let algorithm2 ← orRaise PyError.indexError
      (if cfg.scale_randomize then pyChoice cfg.down_up_scale_algorithms r.algIdx2
       else cfg.down_up_scale_algorithms.getLast?)
    let scale_factor := r.scale_factor
    let interp1 ← orRaise (PyError.keyError algorithm1) (interpolation_map algorithm1)
    let image1 := cvResize image (pyIntTrunc ((w : ℚ) * scale_factor))
      (pyIntTrunc ((h : ℚ) * scale_factor)) interp1 r.pix1
    let interp2 ← orRaise (PyError.keyError algorithm2) (interpolation_map algorithm2)
    let image2 := cvResize image1 new_w new_h interp2 r.pix2
    let text := if cfg.print_to_image then
        "down_up scale1factor=" ++ toString scale_factor ++ " scale1algorithm=" ++ algorithm1
          ++ " scale2factor=" ++ toString (cfg.size_factor / scale_factor)
          ++ " scale2algorithm=" ++ algorithm2
      else ""
    pure (some image2, text)
  else do
    let interp ← orRaise (PyError.keyError algorithm) (interpolation_map algorithm)
    let image2 := cvResize image new_w new_h interp r.pix1
    let text := if cfg.print_to_image then algorithm ++ " size factor=" ++ toString cfg.size_factor
      else ""
    pure (some image2, text)

/-- Swap two positions of a list; a no-op when either index is out of
bounds (random.shuffle never produces such indices). -/
def listSwap {α : Type} (l : List α) (i j : Nat) : List α :=
  match l.get? i, l.get? j with
  | some a, some b => (l.set i b).set j a
  | some _, none => l
  | none, _ => l

/-- The Fisher and Yates loop of random.shuffle: for i from n down to 1,
swap position i with position rb (i + 1), where rb models _randbelow(i + 1),
the draw of an index below its argument. -/
def shuffleAux {α : Type} (rb : Nat → Nat) : Nat → List α → List α
  | 0, l => l
  | Nat.succ i, l => shuffleAux rb i (listSwap l (i + 1) (rb (i + 1)))

/-- random.shuffle on a list, with the underlying randbelow draws given by
the oracle rb. -/
def pyShuffle {α : Type} (rb : Nat → Nat) (l : List α) : List α :=
  shuffleAux rb (l.length - 1) l

/-- Source lines 254-257: copy the configured degradation list and shuffle
the copy when the global randomize flag is set. -/
def degradation_order (cfg : Config) (rb : Nat → Nat) : List String :=
  if cfg.degradations_randomize then pyShuffle rb cfg.degradations else cfg.degradations

/-- One iteration body of the dispatch loop in process_image (source lines
258-266): dispatch on the degradation name; an unrecognized name leaves both
the working image and the Python text variable (modelled as Option String,
none when still unbound) untouched. -/
def processStep (cfg : Config) (r : StepRand) (degradation : String)
    (image : Option Image) (text : Option String) :
    Except PyError (Option Image × Option String) :=
  if degradation = "blur" then (apply_blur cfg r.blur image).map (fun p => (p.1, some p.2))
  else if degradation = "noise" then (apply_noise cfg r.noise image).map (fun p => (p.1, some p.2))
  else if degradation = "compression" then
    (apply_compression cfg r.comp image).map (fun p => (p.1, some p.2))
  else if degradation = "scale" then (apply_scale cfg r.scale image).map (fun p => (p.1, some p.2))
  else Except.ok (image, text)

/-- The dispatch loop of process_image (source lines 258-267): run the steps
in order, threading the working image and the text variable, and appending
"degradation text" to all_text after every step; evaluating the unbound text
variable raises NameError. -/
def processLoop (cfg : Config) (rs : Nat → StepRand) :
    List String → Nat → Option Image → Option String → List String →
      Except PyError (Option Image × List String)
  | [], _, image, _, all_text => Except.ok (image, all_text)
  | degradation :: rest, n, image, text, all_text => do
    let p ← processStep cfg (rs n) degradation image text
    match p.2 with
    | none => Except.error (PyError.nameError "text")
    | some t =>
      processLoop cfg rs rest (n + 1) p.1 (some t) (all_text ++ [degradation ++ " " ++ t])

/-- The annotation loop of process_image (source lines 269-271): burn each
recorded line onto the image with print_text_to_image, with the 1-based
enumeration index; cv2.putText raises on an absent image. -/
def annotLoop (cfg : Config) : Option Image → List String → Nat → Except PyError (Option Image)
  | image, [], _ => Except.ok image
  | none, _ :: _, _ => Except.error PyError.cvError
  | some image, text :: rest, order =>
    annotLoop cfg (some (print_text_to_image cfg image text order)) rest (order + 1)

/-- Source lines 251-276, process_image on one input. imread_result is what
cv2.imread returned (none when the input was unreadable; the source performs
no check on it). The returned image is the one handed to cv2.imwrite, which
raises on an absent buffer. Output path handling is outside the core. -/
def process_image (cfg : Config) (imread_result : Option Image) (rs : Nat → StepRand)
    (rb : Nat → Nat) : Except PyError Image := do
  let image := imread_result
  let order := degradation_order cfg rb
  let p ← processLoop cfg rs order 0 image none []
  let image3 ← if cfg.print_to_image then annotLoop cfg p.1 p.2 1 else pure p.1
  match image3 with
  | none => Except.error PyError.cvError
  | some img => pure img

/-! ### Concrete fixtures used by witness theorems -/

/-- A concrete 2 x 2 pixel buffer. -/
def img0 : Image := ⟨2, 2, [7, 7, 7, 7, 7, 7, 7, 7, 7, 7, 7, 7], []⟩

/-- A concrete 1 x 1 pixel buffer with bright samples. -/
def img1 : Image := ⟨1, 1, [200, 200, 200], []⟩

/-- A concrete well formed configuration. -/
def cfgBase : Config where
  degradations := ["blur", "noise", "compression", "scale"]
  degradations_randomize := false
  blur_algorithms := ["average"]
  blur_randomize := false
  blur_range := (1, 15)
  noise_algorithms := ["uniform"]
  noise_randomize := false
  noise_range := (0, 50)
  compression_algorithms := ["h264"]
  compression_randomize := false
  jpeg_quality_range := (40, 100)
  webp_quality_range := (45, 100)
  h264_crf_level_range := (20, 28)
  hevc_crf_level_range := (25, 33)
  mpegbitrate := "2500k"
  mpeg2bitrate := "2500k"
  size_factor := 1 / 2
  scale_algorithms := ["bicubic"]
  down_up_scale_algorithms := ["bicubic", "bilinear"]
  scale_randomize := false
  scale_range := (1 / 2, 2)
  print_to_image := false

/-- Fixed draws for blur. -/
def blurRand0 : BlurRand := ⟨0, 2, 3, fun _ => 0⟩

/-- Fixed draws for noise, with a noise buffer of constant byte 100. -/
def noiseRand0 : NoiseRand := ⟨0, 5, 5, 5, 5, fun _ => 100⟩

/-- Fixed draws for compression, with an empty decoded byte stream. -/
def compRand0 : CompRand := ⟨0, 90, 23, fun _ => 0, [], ""⟩

/-- Fixed draws for compression whose decoded byte stream has exactly
2 * 2 * 3 bytes. -/
def compRand1 : CompRand := ⟨0, 90, 23, fun _ => 0, List.replicate 12 9, ""⟩

/-- Fixed draws for scale. -/
def scaleRand0 : ScaleRand := ⟨0, 0, 0, 1 / 2, fun _ => 0, fun _ => 0⟩

/-- Fixed draws for one pipeline step. -/
def stepRand0 : StepRand := ⟨blurRand0, noiseRand0, compRand0, scaleRand0⟩

/-! ### Helper lemmas -/

theorem nat_lor_one (m : Nat) : m ||| 1 = if m % 2 = 0 then m + 1 else m := by
  apply Nat.eq_of_testBit_eq
  intro i
  rw [Nat.testBit_lor]
  cases i with
  | zero =>
    rcases Nat.mod_two_eq_zero_or_one m with h | h
    · simp [h, Nat.testBit_zero, Nat.add_mod, Nat.succ_mod_two_eq_one_iff]
    · simp [h, Nat.testBit_zero]
  | succ i =>
    have h1 : Nat.testBit 1 (i + 1) = false := by
      rw [Nat.testBit_succ]
      simp
    rw [h1, Bool.or_false]
    rcases Nat.mod_two_eq_zero_or_one m with h | h
    · rw [if_pos h, Nat.testBit_succ, Nat.testBit_succ]
      congr 1
      omega
    · rw [if_neg (by omega)]

theorem nat_ldiff_one (m : Nat) : Nat.ldiff m 1 = m - m % 2 := by
  apply Nat.eq_of_testBit_eq
  intro i
  rw [Nat.testBit_ldiff]
  cases i with
  | zero =>
    simp only [Nat.testBit_zero]
    rcases Nat.mod_two_eq_zero_or_one m with h | h
    · simp [h]
      try omega
    · simp [h]
      try omega
  | succ i =>
    have h1 : Nat.testBit 1 (i + 1) = false := by
      rw [Nat.testBit_succ]
      simp
    rw [h1, Bool.not_false, Bool.and_true, Nat.testBit_succ, Nat.testBit_succ]
    congr 1
    omega

theorem gaussianKsize_eq (k : Int) : gaussianKsize k = if k % 2 = 0 then k + 1 else k := by
  unfold gaussianKsize
  cases k with
  | ofNat m =>
    have hl : Int.lor (Int.ofNat m) 1 = Int.ofNat (m ||| 1) := rfl
    rw [hl, nat_lor_one]
    simp only [Int.ofNat_eq_natCast]
    rcases Nat.mod_two_eq_zero_or_one m with h | h
    · rw [if_pos h, if_pos (by omega : ((m : Int)) % 2 = 0)]
      push_cast
      ring
    · rw [if_neg (by omega), if_neg (by omega : ¬ ((m : Int)) % 2 = 0)]
  | negSucc m =>
    have hl : Int.lor (Int.negSucc m) 1 = Int.negSucc (Nat.ldiff m 1) := rfl
    rw [hl, nat_ldiff_one]
    rcases Nat.mod_two_eq_zero_or_one m with h | h
    · rw [if_neg (by rw [Int.negSucc_eq]; omega)]
      rw [h, Nat.sub_zero]
    · rw [if_pos (by rw [Int.negSucc_eq]; omega)]
      rw [Int.negSucc_eq, Int.negSucc_eq]
      omega

theorem set_cons_perm {α : Type} :
    ∀ (t : List α) (m : Nat) (a b : α), t.get? m = some b →
      List.Perm (b :: t.set m a) (a :: t) := by
  intro t
  induction t with
  | nil => intro m a b hb; simp at hb
  | cons c t ih =>
    intro m a b hb
    cases m with
    | zero =>
      simp at hb
      subst hb
      exact List.Perm.swap _ _ t
    | succ m =>
      simp only [List.get?] at hb
      simp only [List.set]
      exact (List.Perm.swap c b _).trans
        ((List.Perm.cons c (ih m a b hb)).trans (List.Perm.swap a c t))

theorem swap_sets_perm {α : Type} :
    ∀ (l : List α) (i j : Nat) (a b : α), l.get? i = some a → l.get? j = some b →
      List.Perm ((l.set i b).set j a) l := by
  intro l
  induction l with
  | nil => intro i j a b ha _; simp at ha
  | cons c t ih =>
    intro i j a b ha hb
    cases i with
    | zero =>
      simp at ha
      subst ha
      cases j with
      | zero =>
        simp at hb
        subst hb
        simp
      | succ j =>
        simp only [List.get?] at hb
        simp only [List.set]
        exact set_cons_perm t j _ _ hb
    | succ i =>
      simp only [List.get?] at ha
      cases j with
      | zero =>
        simp at hb
        subst hb
        simp only [List.set]
        exact set_cons_perm t i _ _ ha
      | succ j =>
        simp only [List.get?] at hb
        simp only [List.set]
        exact List.Perm.cons c (ih i j a b ha hb)

theorem listSwap_perm {α : Type} (l : List α) (i j : Nat) : List.Perm (listSwap l i j) l := by
  unfold listSwap
  cases ha : l.get? i with
  | none => exact List.Perm.refl l
  | some a =>
    cases hb : l.get? j with
    | none => exact List.Perm.refl l
    | some b => exact swap_sets_perm l i j a b ha hb

theorem shuffleAux_perm {α : Type} (rb : Nat → Nat) :
    ∀ (n : Nat) (l : List α), List.Perm (shuffleAux rb n l) l := by
  intro n
  induction n with
  | zero => intro l; exact List.Perm.refl l
  | succ i ih =>
    intro l
    exact List.Perm.trans (ih (listSwap l (i + 1) (rb (i + 1))))
      (listSwap_perm l (i + 1) (rb (i + 1)))

theorem pyShuffle_perm {α : Type} (rb : Nat → Nat) (l : List α) :
    List.Perm (pyShuffle rb l) l :=
  shuffleAux_perm rb (l.length - 1) l

theorem pyIntTrunc_nonneg {q : ℚ} (h : 0 ≤ q) : 0 ≤ pyIntTrunc q := by
  unfold pyIntTrunc
  rw [if_pos h]
  exact Int.floor_nonneg.mpr h

theorem pyIntTrunc_of_nonneg {q : ℚ} (h : 0 ≤ q) : pyIntTrunc q = ⌊q⌋ := by
  unfold pyIntTrunc
  rw [if_pos h]

/-! ### Claim theorems -/

/-- C1: for every configured degradation list and every stream of shuffle
draws, the Degradation Order computed by process_image is a permutation of
the configured list (same multiset, hence same length), whether or not the
randomize flag is set; and with the flag off it is exactly the configured
list. -/
theorem degradation_order_perm (cfg : Config) (rb : Nat → Nat) :
    List.Perm (degradation_order cfg rb) cfg.degradations ∧
      (cfg.degradations_randomize = false → degradation_order cfg rb = cfg.degradations) := by
  constructor
  · unfold degradation_order
    split
    · exact pyShuffle_perm rb cfg.degradations
    · exact List.Perm.refl _
  · intro h
    unfold degradation_order
    rw [h]
    simp

/-- C1 witness: at the concrete configuration the computed order is a
permutation of the configured list, and equals it since randomization is
off. -/
theorem degradation_order_perm_witness :
    List.Perm (degradation_order cfgBase (fun _ => 0)) cfgBase.degradations ∧
      degradation_order cfgBase (fun _ => 0) = cfgBase.degradations :=
  ⟨(degradation_order_perm cfgBase (fun _ => 0)).1,
    (degradation_order_perm cfgBase (fun _ => 0)).2 rfl⟩

/-- C9: the gaussian blur kernel size is the sampled integer bitwise-or 1,
that is k itself for odd k and k + 1 for even k; consequently, for every
blur range whose upper bound is even there is a sample (the bound itself)
whose used kernel size exceeds the bound by one. -/
theorem gaussian_ksize_or_one :
    (∀ k : Int, gaussianKsize k = if k % 2 = 0 then k + 1 else k) ∧
      (∀ low high : Int, low ≤ high → high % 2 = 0 →
        ∃ k : Int, low ≤ k ∧ k ≤ high ∧ high < gaussianKsize k ∧
          gaussianKsize k = high + 1) := by
  constructor
  · exact gaussianKsize_eq
  · intro low high hle heven
    refine ⟨high, hle, le_refl high, ?_, ?_⟩
    · rw [gaussianKsize_eq, if_pos heven]
      omega
    · rw [gaussianKsize_eq, if_pos heven]

/-- C9 witness: for the range (1, 4) the sample 4 gives kernel size 5. -/
theorem gaussian_ksize_or_one_witness :
    ∃ k : Int, 1 ≤ k ∧ k ≤ 4 ∧ 4 < gaussianKsize k ∧ gaussianKsize k = 4 + 1 :=
  gaussian_ksize_or_one.2 1 4 (by norm_num) (by decide)

/-- C5 counterexample: a blur range may contain negative integers (the code
does not constrain ranges), and at the sampled value -3 the gaussian kernel
size -3 ||| 1 = -3 and the isotropic kernel size 2 * int(4 * -3 + 0.5) + 1
= -21 are both below 1, refuting that derived kernel sizes are always at
least 1 for every sampled integer; moreover 2 * floor(4 * -3 + 0.5) + 1
= -23 differs from the isotropic kernel size, refuting the floor formula at
negative samples. -/
theorem blur_ksize_counterexample :
    gaussianKsize (-3) = -3 ∧ ¬ (1 ≤ gaussianKsize (-3)) ∧
      isoKsize (-3) = -21 ∧ ¬ (1 ≤ isoKsize (-3)) ∧
      2 * ⌊4 * ((-3 : Int) : ℚ) + 0.5⌋ + 1 = -23 ∧
      isoKsize (-3) ≠ 2 * ⌊4 * ((-3 : Int) : ℚ) + 0.5⌋ + 1 := by
  have hg : gaussianKsize (-3) = -3 := by
    rw [gaussianKsize_eq]
    norm_num
  have hceil : ⌈(4 * ((-3 : Int) : ℚ) + 0.5)⌉ = -11 := by
    rw [Int.ceil_eq_iff]
    norm_num
  have hfloor : ⌊(4 * ((-3 : Int) : ℚ) + 0.5)⌋ = -12 := by
    rw [Int.floor_eq_iff]
    norm_num
  have hi : isoKsize (-3) = -21 := by
    unfold isoKsize pyIntTrunc
    rw [if_neg (by norm_num), hceil]
    norm_num
  refine ⟨hg, by omega, hi, by omega, by rw [hfloor]; norm_num, by rw [hi, hfloor]; norm_num⟩

/-- C5 amended: for every nonnegative integer sampled from the blur range,
the gaussian kernel size k ||| 1 and the isotropic and anisotropic kernel
size 2 * int(4 * sigma + 0.5) + 1 are odd and at least 1, and on
nonnegative sigma the truncation agrees with the floor formula
2 * floor(4 * sigma + 0.5) + 1. -/
theorem blur_ksize_odd_ge_one (k : Int) (hk : 0 ≤ k) :
    Odd (gaussianKsize k) ∧ 1 ≤ gaussianKsize k ∧
      Odd (isoKsize k) ∧ 1 ≤ isoKsize k ∧
      isoKsize k = 2 * ⌊4 * (k : ℚ) + 0.5⌋ + 1 := by
  have hq : (0 : ℚ) ≤ 4 * (k : ℚ) + 0.5 := by
    have : (0 : ℚ) ≤ (k : ℚ) := by exact_mod_cast hk
    nlinarith
  have htr : pyIntTrunc (4 * (k : ℚ) + 0.5) = ⌊4 * (k : ℚ) + 0.5⌋ := pyIntTrunc_of_nonneg hq
  have hfl : 0 ≤ ⌊4 * (k : ℚ) + 0.5⌋ := Int.floor_nonneg.mpr hq
  refine ⟨?_, ?_, ?_, ?_, ?_⟩
  · rw [gaussianKsize_eq, Int.odd_iff]
    rcases Int.emod_two_eq_zero_or_one k with h | h
    · rw [if_pos h]
      omega
    · rw [if_neg (by omega)]
      omega
  · rw [gaussianKsize_eq]
    rcases Int.emod_two_eq_zero_or_one k with h | h
    · rw [if_pos h]
      omega
    · rw [if_neg (by omega)]
      omega
  · unfold isoKsize
    rw [htr, Int.odd_iff]
    omega
  · unfold isoKsize
    rw [htr]
    omega
  · unfold isoKsize
    rw [htr]

/-- C5 witness: at the sampled value 2 both kernel sizes are odd, at least
1, and the floor formula matches. -/
theorem blur_ksize_odd_ge_one_witness :
    Odd (gaussianKsize 2) ∧ 1 ≤ gaussianKsize 2 ∧
      Odd (isoKsize 2) ∧ 1 ≤ isoKsize 2 ∧
      isoKsize 2 = 2 * ⌊4 * ((2 : Int) : ℚ) + 0.5⌋ + 1 :=
  blur_ksize_odd_ge_one 2 (by norm_num)

/-- C2: on the video codec path (h264, hevc, mpeg, mpeg2), apply_compression
returns an image exactly when the decoded byte stream has length
height * width * 3; the returned image then has exactly those dimensions and
bytes, and on any other length the call raises reshapeError carrying the
expected dimensions and the captured decoder diagnostics — never a truncated
or padded image. -/
theorem apply_compression_reshape (cfg : Config) (r : CompRand) (img : Image) (alg : String)
    (halg : selectAlg cfg.compression_randomize cfg.compression_algorithms r.algIdx = some alg)
    (hvid : alg ∈ ["h264", "hevc", "mpeg", "mpeg2"]) :
    (r.videoOut.length = img.height * img.width * 3 →
      ∃ txt, apply_compression cfg r (some img) =
        Except.ok
          (some ⟨img.height, img.width, r.videoOut.map (fun b => b % 256), img.annots⟩, txt)) ∧
    (r.videoOut.length ≠ img.height * img.width * 3 →
      apply_compression cfg r (some img) =
        Except.error (PyError.reshapeError img.height img.width r.errDiag)) := by
  have step : ∀ txt0,
      (r.videoOut.length = img.height * img.width * 3 →
        (if r.videoOut.length = img.height * img.width * 3
          then Except.ok (α := Option Image × String)
            (some ⟨img.height, img.width, r.videoOut.map (fun b => b % 256), img.annots⟩, txt0)
          else Except.error (PyError.reshapeError img.height img.width r.errDiag)) =
          Except.ok
            (some ⟨img.height, img.width, r.videoOut.map (fun b => b % 256), img.annots⟩, txt0)) ∧
      (r.videoOut.length ≠ img.height * img.width * 3 →
        (if r.videoOut.length = img.height * img.width * 3
          then Except.ok (α := Option Image × String)
            (some ⟨img.height, img.width, r.videoOut.map (fun b => b % 256), img.annots⟩, txt0)
          else Except.error (PyError.reshapeError img.height img.width r.errDiag)) =
          Except.error (PyError.reshapeError img.height img.width r.errDiag)) := by
    intro txt0
    constructor
    · intro hlen
      rw [if_pos hlen]
    · intro hlen
      rw [if_neg hlen]
  fin_cases hvid
  · have he : apply_compression cfg r (some img) =
        if r.videoOut.length = img.height * img.width * 3
          then Except.ok
            (some ⟨img.height, img.width, r.videoOut.map (fun b => b % 256), img.annots⟩,
              "h264" ++ " " ++ "crf" ++ "=" ++ toString r.crf_level)
          else Except.error (PyError.reshapeError img.height img.width r.errDiag) := by
      unfold apply_compression
      rw [halg]
      show (if r.videoOut.length = img.height * img.width * 3 then _ else _) = _
      rfl
    exact ⟨fun hlen => ⟨_, he.trans ((step _).1 hlen)⟩, fun hlen => he.trans ((step _).2 hlen)⟩
  · have he : apply_compression cfg r (some img) =
        if r.videoOut.length = img.height * img.width * 3
          then Except.ok
            (some ⟨img.height, img.width, r.videoOut.map (fun b => b % 256), img.annots⟩,
              "hevc" ++ " " ++ "crf" ++ "=" ++ toString r.crf_level)
          else Except.error (PyError.reshapeError img.height img.width r.errDiag) := by
      unfold apply_compression
      rw [halg]
      show (if r.videoOut.length = img.height * img.width * 3 then _ else _) = _
      rfl
    exact ⟨fun hlen => ⟨_, he.trans ((step _).1 hlen)⟩, fun hlen => he.trans ((step _).2 hlen)⟩
  · have he : apply_compression cfg r (some img) =
        if r.videoOut.length = img.height * img.width * 3
          then Except.ok
            (some ⟨img.height, img.width, r.videoOut.map (fun b => b % 256), img.annots⟩,
              "mpeg" ++ " " ++ "b" ++ "=" ++ cfg.mpegbitrate)
          else Except.error (PyError.reshapeError img.height img.width r.errDiag) := by
      unfold apply_compression
      rw [halg]
      show (if r.videoOut.length = img.height * img.width * 3 then _ else _) = _
      rfl
    exact ⟨fun hlen => ⟨_, he.trans ((step _).1 hlen)⟩, fun hlen => he.trans ((step _).2 hlen)⟩
  · have he : apply_compression cfg r (some img) =
        if r.videoOut.length = img.height * img.width * 3
          then Except.ok
            (some ⟨img.height, img.width, r.videoOut.map (fun b => b % 256), img.annots⟩,
              "mpeg2" ++ " " ++ "b" ++ "=" ++ cfg.mpeg2bitrate)
          else Except.error (PyError.reshapeError img.height img.width r.errDiag) := by
      unfold apply_compression
      rw [halg]
      show (if r.videoOut.length = img.height * img.width * 3 then _ else _) = _
      rfl
    exact ⟨fun hlen => ⟨_, he.trans ((step _).1 hlen)⟩, fun hlen => he.trans ((step _).2 hlen)⟩

/-- C2 witness: with a 2 x 2 image, a 12 byte decoded stream produces the
reshaped image, and an empty decoded stream raises reshapeError 2 2. -/
theorem apply_compression_reshape_witness :
    (∃ txt, apply_compression cfgBase compRand1 (some img0) =
      Except.ok
        (some ⟨img0.height, img0.width, compRand1.videoOut.map (fun b => b % 256), img0.annots⟩,
          txt)) ∧
    apply_compression cfgBase compRand0 (some img0) =
      Except.error (PyError.reshapeError img0.height img0.width compRand0.errDiag) :=
  ⟨(apply_compression_reshape cfgBase compRand1 img0 "h264" rfl (by simp)).1 (by decide),
    (apply_compression_reshape cfgBase compRand0 img0 "h264" rfl (by simp)).2 (by decide)⟩

/-- orRaise on a present value binds to the continuation. -/
theorem orRaise_some_bind {α β : Type} (e : PyError) (a : α) (f : α → Except PyError β) :
    (orRaise e (some a) >>= f) = f a := rfl

/-- orRaise on an absent value short circuits to the error. -/
theorem orRaise_none_bind {α β : Type} (e : PyError) (f : α → Except PyError β) :
    (orRaise e (none : Option α) >>= f) = Except.error e := rfl

/-- C3: whenever apply_scale succeeds — for every scale algorithm, the
composite down_up included — with a nonnegative size_factor, the output
dimensions are exactly int(h * size_factor) and int(w * size_factor), under
Python int truncation (not rounding). -/
theorem apply_scale_dims (cfg : Config) (r : ScaleRand) (img : Image)
    (hsf : 0 ≤ cfg.size_factor) (out : Option Image) (txt : String)
    (hok : apply_scale cfg r (some img) = Except.ok (out, txt)) :
    ∃ res : Image, out = some res ∧
      (res.height : Int) = pyIntTrunc ((img.height : ℚ) * cfg.size_factor) ∧
      (res.width : Int) = pyIntTrunc ((img.width : ℚ) * cfg.size_factor) := by
  have hnnh : 0 ≤ pyIntTrunc ((img.height : ℚ) * cfg.size_factor) :=
    pyIntTrunc_nonneg (mul_nonneg (by positivity) hsf)
  have hnnw : 0 ≤ pyIntTrunc ((img.width : ℚ) * cfg.size_factor) :=
    pyIntTrunc_nonneg (mul_nonneg (by positivity) hsf)
  unfold apply_scale at hok
  rw [orRaise_some_bind] at hok
  cases halg : selectAlg cfg.scale_randomize cfg.scale_algorithms r.algIdx with
  | none =>
    rw [halg, orRaise_none_bind] at hok
    simp at hok
  | some alg =>
    rw [halg, orRaise_some_bind] at hok
    by_cases hdu : alg = "down_up"
    · subst hdu
      rw [if_pos rfl] at hok
      cases h1 : (if cfg.scale_randomize then pyChoice cfg.down_up_scale_algorithms r.algIdx1
          else cfg.down_up_scale_algorithms.head?) with
      | none =>
        rw [h1, orRaise_none_bind] at hok
        simp at hok
      | some a1 =>
        rw [h1, orRaise_some_bind] at hok
        cases h2 : (if cfg.scale_randomize then pyChoice cfg.down_up_scale_algorithms r.algIdx2
            else cfg.down_up_scale_algorithms.getLast?) with
        | none =>
          rw [h2, orRaise_none_bind] at hok
          simp at hok
        | some a2 =>
          rw [h2, orRaise_some_bind] at hok
          cases hi1 : interpolation_map a1 with
          | none =>
            rw [hi1, orRaise_none_bind] at hok
            simp at hok
          | some i1 =>
            rw [hi1, orRaise_some_bind] at hok
            cases hi2 : interpolation_map a2 with
            | none =>
              rw [hi2, orRaise_none_bind] at hok
              simp at hok
            | some i2 =>
              rw [hi2, orRaise_some_bind] at hok
              simp only [pure, Except.pure, Except.ok.injEq, Prod.mk.injEq] at hok
              refine ⟨_, hok.1.symm, ?_, ?_⟩
              · exact Int.toNat_of_nonneg hnnh
              · exact Int.toNat_of_nonneg hnnw
    · rw [if_neg hdu] at hok
      cases hi : interpolation_map alg with
      | none =>
        rw [hi, orRaise_none_bind] at hok
        simp at hok
      | some i =>
        rw [hi, orRaise_some_bind] at hok
        simp only [pure, Except.pure, Except.ok.injEq, Prod.mk.injEq] at hok
        refine ⟨_, hok.1.symm, ?_, ?_⟩
        · exact Int.toNat_of_nonneg hnnh
        · exact Int.toNat_of_nonneg hnnw

/-- C3 witness: the concrete configuration (size_factor one half, bicubic)
halves a 2 x 2 image to 1 x 1. -/
theorem apply_scale_dims_witness :
    ∃ res : Image, some (⟨1, 1, [0, 0, 0], []⟩ : Image) = some res ∧
      (res.height : Int) = pyIntTrunc ((img0.height : ℚ) * cfgBase.size_factor) ∧
      (res.width : Int) = pyIntTrunc ((img0.width : ℚ) * cfgBase.size_factor) :=
  apply_scale_dims cfgBase scaleRand0 img0 (by norm_num [cfgBase])
    (some ⟨1, 1, [0, 0, 0], []⟩) "" (by
      have h1 : pyIntTrunc ((2 : ℚ) * (1 / 2)) = 1 := by
        unfold pyIntTrunc
        norm_num
      show apply_scale cfgBase scaleRand0 (some img0) = Except.ok (some ⟨1, 1, [0, 0, 0], []⟩, "")
      unfold apply_scale
      rw [orRaise_some_bind]
      rw [show selectAlg cfgBase.scale_randomize cfgBase.scale_algorithms scaleRand0.algIdx =
        some "bicubic" from rfl]
      rw [orRaise_some_bind]
      rw [if_neg (by decide)]
      rw [show interpolation_map "bicubic" = some 2 from rfl]
      rw [orRaise_some_bind]
      show Except.ok (some (cvResize img0
        (pyIntTrunc ((img0.width : ℚ) * cfgBase.size_factor))
        (pyIntTrunc ((img0.height : ℚ) * cfgBase.size_factor)) 2 scaleRand0.pix1), _) = _
      rw [show ((img0.width : ℚ) * cfgBase.size_factor) = (2 : ℚ) * (1 / 2) from by
          norm_num [img0, cfgBase],
        show ((img0.height : ℚ) * cfgBase.size_factor) = (2 : ℚ) * (1 / 2) from by
          norm_num [img0, cfgBase], h1]
      rfl)

/-- C4: apply_noise preserves the image shape for every algorithm; uniform
and gaussian add their noise buffer with cv2.add, i.e. saturating, so every
output sample is at most 255; color and gray add with numpy wraparound
mod 256; and wraparound disagrees with saturation on concrete samples
(200 + 100 gives 44, saturation gives 255), so only the color and gray pair
can produce values inconsistent with saturation. -/
theorem apply_noise_shape_and_asymmetry (cfg : Config) (r : NoiseRand) (img : Image)
    (hwf : img.data.length = img.height * img.width * 3) :
    (∀ out txt, apply_noise cfg r (some img) = Except.ok (out, txt) →
      ∃ res : Image, out = some res ∧ res.height = img.height ∧ res.width = img.width ∧
        res.data.length = res.height * res.width * 3) ∧
    (∀ alg, selectAlg cfg.noise_randomize cfg.noise_algorithms r.algIdx = some alg →
      alg = "uniform" ∨ alg = "gaussian" →
      apply_noise cfg r (some img) = Except.ok (some ⟨img.height, img.width,
        (List.range (img.height * img.width * 3)).map
          (fun i => satAdd (img.data.getD i 0) (r.bytes i % 256)), img.annots⟩,
        alg ++ " intensity=" ++ toString r.intensity) ∧
      ∀ x ∈ (List.range (img.height * img.width * 3)).map
          (fun i => satAdd (img.data.getD i 0) (r.bytes i % 256)), x ≤ 255) ∧
    (selectAlg cfg.noise_randomize cfg.noise_algorithms r.algIdx = some "color" →
      apply_noise cfg r (some img) = Except.ok (some ⟨img.height, img.width,
        (List.range (img.height * img.width * 3)).map
          (fun i => wrapAdd (img.data.getD i 0) (r.bytes i % 256)), img.annots⟩,
        "color s=(" ++ toString r.s1 ++ ", " ++ toString r.s2 ++ ", " ++ toString r.s3 ++ ")")) ∧
    (selectAlg cfg.noise_randomize cfg.noise_algorithms r.algIdx = some "gray" →
      apply_noise cfg r (some img) = Except.ok (some ⟨img.height, img.width,
        (List.range (img.height * img.width * 3)).map
          (fun i => wrapAdd (img.data.getD i 0) (r.bytes (i / 3) % 256)), img.annots⟩,
        "gray s=(" ++ toString r.s1 ++ ",)")) ∧
    (wrapAdd 200 100 = 44 ∧ satAdd 200 100 = 255 ∧ wrapAdd 200 100 ≠ satAdd 200 100) := by
  refine ⟨?_, ?_, ?_, ?_, by decide, by decide, by decide⟩
  · intro out txt hok
    unfold apply_noise at hok
    cases halg : selectAlg cfg.noise_randomize cfg.noise_algorithms r.algIdx with
    | none =>
      rw [halg, orRaise_none_bind] at hok
      simp at hok
    | some alg =>
      rw [halg, orRaise_some_bind] at hok
      by_cases h1 : alg = "uniform"
      · rw [if_pos h1, orRaise_some_bind] at hok
        simp only [pure, Except.pure, Except.ok.injEq, Prod.mk.injEq] at hok
        exact ⟨_, hok.1.symm, rfl, rfl, by simp⟩
      rw [if_neg h1] at hok
      by_cases h2 : alg = "gaussian"
      · rw [if_pos h2, orRaise_some_bind] at hok
        simp only [pure, Except.pure, Except.ok.injEq, Prod.mk.injEq] at hok
        exact ⟨_, hok.1.symm, rfl, rfl, by simp⟩
      rw [if_neg h2] at hok
      by_cases h3 : alg = "color"
      · rw [if_pos h3, orRaise_some_bind] at hok
        simp only [pure, Except.pure, Except.ok.injEq, Prod.mk.injEq] at hok
        exact ⟨_, hok.1.symm, rfl, rfl, by simp⟩
      rw [if_neg h3] at hok
      by_cases h4 : alg = "gray"
      · rw [if_pos h4, orRaise_some_bind] at hok
        simp only [pure, Except.pure, Except.ok.injEq, Prod.mk.injEq] at hok
        exact ⟨_, hok.1.symm, rfl, rfl, by simp⟩
      rw [if_neg h4] at hok
      simp only [pure, Except.pure, Except.ok.injEq, Prod.mk.injEq] at hok
      exact ⟨img, hok.1.symm, rfl, rfl, hwf⟩
  · intro alg halg hor
    have hgoal : apply_noise cfg r (some img) = Except.ok (some ⟨img.height, img.width,
        (List.range (img.height * img.width * 3)).map
          (fun i => satAdd (img.data.getD i 0) (r.bytes i % 256)), img.annots⟩,
        alg ++ " intensity=" ++ toString r.intensity) := by
      unfold apply_noise
      rw [halg, orRaise_some_bind]
      rcases hor with h | h
      · subst h
        rw [if_pos rfl, orRaise_some_bind]
        rfl
      · subst h
        rw [if_neg (by decide), if_pos rfl, orRaise_some_bind]
        rfl
    refine ⟨hgoal, ?_⟩
    intro x hx
    simp only [List.mem_map] at hx
    obtain ⟨i, _, rfl⟩ := hx
    exact min_le_right _ _
  · intro halg
    unfold apply_noise
    rw [halg, orRaise_some_bind]
    rw [if_neg (by decide), if_neg (by decide), if_pos rfl, orRaise_some_bind]
    rfl
  · intro halg
    unfold apply_noise
    rw [halg, orRaise_some_bind]
    rw [if_neg (by decide), if_neg (by decide), if_neg (by decide), if_pos rfl, orRaise_some_bind]
    rfl

/-- C4 witness: at the concrete 1 x 1 image the wraparound and saturation
sums disagree: 200 + 100 wraps to 44 but saturates to 255. -/
theorem apply_noise_shape_and_asymmetry_witness :
    wrapAdd 200 100 = 44 ∧ satAdd 200 100 = 255 ∧ wrapAdd 200 100 ≠ satAdd 200 100 :=
  (apply_noise_shape_and_asymmetry cfgBase noiseRand0 img1 (by rfl)).2.2.2.2

/-- The concrete configuration with an empty degradation list. -/
def cfgEmptyDeg : Config := { cfgBase with degradations := [] }

/-- The concrete configuration with an unimplemented blur algorithm name. -/
def cfgSharpen : Config := { cfgBase with blur_algorithms := ["sharpen"] }

/-- The concrete configuration with an unimplemented scale algorithm name. -/
def cfgScaleBogus : Config := { cfgBase with scale_algorithms := ["area"] }

/-- The concrete configuration whose first degradation name is unknown. -/
def cfgUnknownFirst : Config := { cfgBase with degradations := ["sharpen"] }

/-- The concrete configuration with size_factor 1. -/
def cfgSF1 : Config := { cfgBase with size_factor := 1 }

/-- The concrete configuration with size_factor 2. -/
def cfgSF2 : Config := { cfgBase with size_factor := 2 }

/-- C6: process_image performs no readability check on the cv2.imread
result: with an unreadable input (imread gives None) and degradation order
[blur, noise, compression, scale], it proceeds past the load step into the
dispatch loop and fails only inside the first cv2 library call of the blur
operator with a generic library error — no decode error is raised at the
load step; with an empty degradation order it even reaches the final
cv2.imwrite with the absent buffer and fails there. -/
theorem process_image_none_no_decode_check :
    process_image cfgBase none (fun _ => stepRand0) (fun _ => 0) = Except.error PyError.cvError ∧
      process_image cfgEmptyDeg none (fun _ => stepRand0) (fun _ => 0) =
        Except.error PyError.cvError := by
  constructor
  · rfl
  · rfl

/-- C7 counterexample: the configured blur algorithm name sharpen has no
implementation, yet apply_blur raises no error of any kind: it silently
returns the working image unchanged with an empty description, refuting
that a missing implementation always raises a configuration error. -/
theorem unknown_algorithm_silent_counterexample :
    apply_blur cfgSharpen blurRand0 (some img0) = Except.ok (some img0, "") := rfl

/-- C7 amended: a selected algorithm name with no implementation makes
Blur, Noise and Compression silently return the working image unchanged
with an empty description; only Scale raises an error, a KeyError from the
interpolation map lookup, for any selected name other than down_up that the
map does not contain. -/
theorem unknown_algorithm_behavior (cfg : Config) (rb : BlurRand) (rn : NoiseRand)
    (rc : CompRand) (rsc : ScaleRand) (oimg : Option Image) (img : Image) (alg : String) :
    (selectAlg cfg.blur_randomize cfg.blur_algorithms rb.algIdx = some alg →
      alg ∉ ["average", "gaussian", "isotropic", "anisotropic"] →
      apply_blur cfg rb oimg = Except.ok (oimg, "")) ∧
    (selectAlg cfg.noise_randomize cfg.noise_algorithms rn.algIdx = some alg →
      alg ∉ ["uniform", "gaussian", "color", "gray"] →
      apply_noise cfg rn oimg = Except.ok (oimg, "")) ∧
    (selectAlg cfg.compression_randomize cfg.compression_algorithms rc.algIdx = some alg →
      alg ∉ ["jpeg", "webp", "h264", "hevc", "mpeg", "mpeg2"] →
      apply_compression cfg rc oimg = Except.ok (oimg, "")) ∧
    (selectAlg cfg.scale_randomize cfg.scale_algorithms rsc.algIdx = some alg →
      alg ≠ "down_up" → interpolation_map alg = none →
      apply_scale cfg rsc (some img) = Except.error (PyError.keyError alg)) := by
  refine ⟨?_, ?_, ?_, ?_⟩
  · intro halg hmem
    have h1 : alg ≠ "average" := by rintro rfl; simp at hmem
    have h2 : alg ≠ "gaussian" := by rintro rfl; simp at hmem
    have h3 : alg ≠ "isotropic" := by rintro rfl; simp at hmem
    have h4 : alg ≠ "anisotropic" := by rintro rfl; simp at hmem
    unfold apply_blur
    rw [halg, orRaise_some_bind, if_neg h1, if_neg h2, if_neg h3, if_neg h4]
    rfl
  · intro halg hmem
    have h1 : alg ≠ "uniform" := by rintro rfl; simp at hmem
    have h2 : alg ≠ "gaussian" := by rintro rfl; simp at hmem
    have h3 : alg ≠ "color" := by rintro rfl; simp at hmem
    have h4 : alg ≠ "gray" := by rintro rfl; simp at hmem
    unfold apply_noise
    rw [halg, orRaise_some_bind, if_neg h1, if_neg h2, if_neg h3, if_neg h4]
    rfl
  · intro halg hmem
    have h1 : alg ≠ "jpeg" := by rintro rfl; simp at hmem
    have h2 : alg ≠ "webp" := by rintro rfl; simp at hmem
    have h3 : alg ∉ (["h264", "hevc", "mpeg", "mpeg2"] : List String) := by
      intro h
      apply hmem
      simp only [List.mem_cons, List.not_mem_nil, or_false] at h ⊢
      tauto
    unfold apply_compression
    rw [halg, orRaise_some_bind, if_neg h1, if_neg h2, if_neg h3]
    rfl
  · intro halg hne hkey
    unfold apply_scale
    rw [orRaise_some_bind, halg, orRaise_some_bind, if_neg hne, hkey, orRaise_none_bind]

/-- C7 witness: at the concrete configuration the unknown scale algorithm
name area raises a KeyError, while blur with the unknown name sharpen would
silently pass the image through. -/
theorem unknown_algorithm_behavior_witness :
    apply_scale cfgScaleBogus scaleRand0 (some img0) = Except.error (PyError.keyError "area") :=
  (unknown_algorithm_behavior cfgScaleBogus blurRand0 noiseRand0 compRand0 scaleRand0
    (some img0) img0 "area").2.2.2 rfl (by decide) rfl

/-- C8 counterexample: print_text_to_image burns line number order at origin
(10, order * 50): the vertical offset does not scale with size_factor, so no
constant of proportionality c can satisfy offset = c * order * size_factor —
order 1 gives offset 50 at size_factor 1 and still 50 at size_factor 2. -/
theorem annot_offset_counterexample :
    ¬ ∃ c : ℚ, ∀ (cfg : Config) (img : Image) (t : String) (order : Nat),
      ((print_text_to_image cfg img t order).annots.getLast?.map (fun a => (a.org.2 : ℚ))) =
        some (c * order * cfg.size_factor) := by
  rintro ⟨c, hc⟩
  have h1 := hc cfgSF1 img0 "x" 1
  have h2 := hc cfgSF2 img0 "x" 1
  simp only [print_text_to_image, cvPutText, img0, cfgSF1, cfgSF2, List.nil_append,
    List.getLast?_singleton, Option.map_some', Option.some.injEq] at h1 h2
  push_cast at h1 h2
  linarith [h1, h2]

theorem annotLoop_general (cfg : Config) :
    ∀ (texts : List String) (img : Image) (start : Nat),
      annotLoop cfg (some img) texts start = Except.ok (some
        ⟨img.height, img.width, img.data,
          img.annots ++ (List.range texts.length).map (fun i =>
            (⟨toString (start + i) ++ ". " ++ texts.getD i "", (10, ((start + i : Nat) : Int) * 50),
              (1.25 : ℚ) * cfg.size_factor, (255, 0, 0), 2⟩ : Annot))⟩) := by
  intro texts
  induction texts with
  | nil =>
    intro img start
    show Except.ok (some img) = _
    simp
  | cons t ts ih =>
    intro img start
    show annotLoop cfg (some (print_text_to_image cfg img t start)) ts (start + 1) = _
    rw [ih]
    unfold print_text_to_image cvPutText
    simp only [Except.ok.injEq, Option.some.injEq, List.length_cons]
    rw [List.range_succ_eq_map]
    simp only [List.map_cons, List.map_map, List.append_assoc, List.singleton_append,
      Nat.add_zero, List.getD_cons_zero, List.getD_cons_succ, Function.comp]
    congr 1
    congr 1
    congr 1
    apply List.map_congr_left
    intro i hi
    rw [show start + 1 + i = start + (i + 1) from by omega]
    simp [Function.comp, List.getD_cons_succ]

/-- C8 amended: when annotation runs, the recorded descriptions are burned
in the order they were produced, line i (1-based) at origin (10, i * 50) —
a vertical offset proportional to the step index alone — while size_factor
scales the font instead, the font scale being 1.25 * size_factor. -/
theorem annotation_order_and_offsets (cfg : Config) (img : Image) (texts : List String) :
    annotLoop cfg (some img) texts 1 = Except.ok (some
      ⟨img.height, img.width, img.data,
        img.annots ++ (List.range texts.length).map (fun i =>
          (⟨toString (1 + i) ++ ". " ++ texts.getD i "", (10, ((1 + i : Nat) : Int) * 50),
            (1.25 : ℚ) * cfg.size_factor, (255, 0, 0), 2⟩ : Annot))⟩) :=
  annotLoop_general cfg texts img 1

/-- C10: a degradation name outside blur, noise, compression and scale
dispatches to no operator: the step leaves the working image unchanged and
still appends the line "name text" built from the previous step's
description text; and when such a name comes first, the text variable is
still unbound, so the loop — and with it process_image — fails with a
NameError at that step. -/
theorem unknown_degradation_behavior (cfg : Config) (rs : Nat → StepRand) (rb : Nat → Nat)
    (d : String) (rest : List String) (n : Nat) (oimg loaded : Option Image) (t : String)
    (acc : List String) (hd : d ∉ ["blur", "noise", "compression", "scale"]) :
    (processLoop cfg rs (d :: rest) n oimg (some t) acc =
      processLoop cfg rs rest (n + 1) oimg (some t) (acc ++ [d ++ " " ++ t])) ∧
    (processLoop cfg rs (d :: rest) n oimg none acc = Except.error (PyError.nameError "text")) ∧
    (cfg.degradations_randomize = false → cfg.degradations = d :: rest →
      process_image cfg loaded rs rb = Except.error (PyError.nameError "text")) := by
  have h1 : d ≠ "blur" := by rintro rfl; simp at hd
  have h2 : d ≠ "noise" := by rintro rfl; simp at hd
  have h3 : d ≠ "compression" := by rintro rfl; simp at hd
  have h4 : d ≠ "scale" := by rintro rfl; simp at hd
  have hstep : ∀ (m : Nat) (im : Option Image) (txt : Option String),
      processStep cfg (rs m) d im txt = Except.ok (im, txt) := by
    intro m im txt
    unfold processStep
    rw [if_neg h1, if_neg h2, if_neg h3, if_neg h4]
  have hloop : ∀ (m : Nat) (im : Option Image) (acc2 : List String),
      processLoop cfg rs (d :: rest) m im none acc2 = Except.error (PyError.nameError "text") := by
    intro m im acc2
    simp only [processLoop]
    rw [hstep]
    rfl
  refine ⟨?_, hloop n oimg acc, ?_⟩
  · simp only [processLoop]
    rw [hstep]
    rfl
  · intro hrand hdeg
    unfold process_image degradation_order
    rw [hrand]
    simp only [Bool.false_eq_true, if_false]
    rw [hdeg, hloop 0 loaded []]
    rfl

/-- C10 witness: with the unknown degradation name sharpen first in the
configured order, process_image fails with the NameError for the unbound
text variable. -/
theorem unknown_degradation_behavior_witness :
    process_image cfgUnknownFirst (some img0) (fun _ => stepRand0) (fun _ => 0) =
      Except.error (PyError.nameError "text") :=
  (unknown_degradation_behavior cfgUnknownFirst (fun _ => stepRand0) (fun _ => 0) "sharpen" []
    0 none (some img0) "" [] (by decide)).2.2 rfl rfl
